import Mathlib

/-!
Verification of the bot lifecycle engine of the `sapine-nodes-api`
repository against its natural-language specification.

The Python sources under `src/app/` are shallowly embedded as Lean
definitions: pure helpers become Lean functions on `List Char` / `String`,
the database becomes an explicit `DB` value threaded through the endpoint
handlers, and every interaction with an external collaborator (the Docker
daemon, the filesystem, the websocket peer) is parametrised by an explicit
outcome value so that the handlers become total functions.
-/

deriving instance DecidableEq for Except

namespace Sapine

/-! ### Enumerations (src/app/models.py) -/

/-- `BotStatus` (src/app/models.py lines 26-31). -/
inductive BotStatus
  | CREATED
  | RUNNING
  | STOPPED
  | CRASHED
  deriving DecidableEq, Repr

/-- `BotRuntime` (src/app/models.py lines 34-37). -/
inductive BotRuntime
  | PYTHON
  | NODE
  deriving DecidableEq, Repr

/-- `SourceType` (src/app/models.py lines 40-43). -/
inductive SourceType
  | ZIP
  | FILE
  deriving DecidableEq, Repr

/-! ### Filename sanitization (src/app/utils.py lines 76-95)

Filenames and commands are modelled as `List Char`; each helper mirrors the
exact CPython primitive the source calls. -/

/-- Characters kept unchanged by the `re.sub(r'[^a-zA-Z0-9._-]', '_', ...)`
step (src/app/utils.py line 88); `Char.isAlpha`/`Char.isDigit` are the ASCII
ranges, exactly the regex's character class. -/
def isSafeChar (c : Char) : Bool :=
  c.isAlpha || c.isDigit || c == '.' || c == '_' || c == '-'

/-- `os.path.basename` on POSIX: everything after the last `/`
(`posixpath.basename`: `p[p.rfind('/') + 1:]`). -/
def basename (l : List Char) : List Char :=
  (l.reverse.takeWhile (· != '/')).reverse

/-- Python `str.replace("..", "")`: deletes leftmost non-overlapping
occurrences of `".."` (src/app/utils.py line 85). -/
def removeDotDot : List Char → List Char
  | [] => []
  | '.' :: '.' :: rest => removeDotDot rest
  | '.' :: [] => ['.']
  | '.' :: c :: rest => '.' :: removeDotDot (c :: rest)
  | c :: rest => c :: removeDotDot rest

/-- Substring search (`needle in haystack`, also Python `re.search` of a
literal pattern). -/
def containsSub : List Char → List Char → Bool
  | [], pat => pat.isEmpty
  | c :: rest, pat => pat.isPrefixOf (c :: rest) || containsSub rest pat

/-- Whether the string contains two adjacent dots. -/
def hasDotDot (l : List Char) : Bool := containsSub l ('.' :: '.' :: [])

/-- Index of the last occurrence of `c`, i.e. Python `str.rfind` returning
`none` for `-1`. -/
def lastIdxOf (c : Char) (l : List Char) : Option Nat :=
  (List.range l.length).foldl
    (fun acc i => if l.getD i ' ' == c then some i else acc) none

/-- `posixpath.splitext`: split at the last dot of the final path component,
except that a component consisting only of leading dots has no extension
(CPython `genericpath._splitext`). -/
def splitext (p : List Char) : List Char × List Char :=
  let s : Int := match lastIdxOf '/' p with | none => -1 | some i => (i : Int)
  let d : Int := match lastIdxOf '.' p with | none => -1 | some i => (i : Int)
  if d > s then
    let start := (s + 1).toNat
    let dn := d.toNat
    if ((p.drop start).take (dn - start)).all (· == '.') then (p, [])
    else (p.take dn, p.drop dn)
  else (p, [])

/-- The length-limiting step of `sanitize_filename` (src/app/utils.py lines
91-93): `if len(filename) > 255: name, ext = os.path.splitext(filename);
filename = name[:250] + ext`. -/
def truncate255 (l : List Char) : List Char :=
  if l.length > 255 then (splitext l).1.take 250 ++ (splitext l).2
  else l

/-- `sanitize_filename` (src/app/utils.py lines 76-95): basename, removal of
`".."`, `"/"` and `"\\"`, replacement of unsafe characters by `'_'`, then the
255-character truncation step. -/
def sanitize_filename (filename : List Char) : List Char :=
  let f1 := basename filename
  let f2 := ((removeDotDot f1).filter (· != '/')).filter (· != '\\')
  let f3 := f2.map (fun c => if isSafeChar c then c else '_')
  truncate255 f3

/-! ### Bot-name validation (src/app/utils.py lines 67-73) -/

/-- Python's `$` anchor (no `re.MULTILINE`): matches at the end of the string
or just before a single trailing newline. -/
def dollarMatches (rest : List Char) : Bool :=
  rest == [] || rest == ['\n']

/-- The character class `[a-zA-Z0-9_-]` of the bot-name regex. -/
def isNameChar (c : Char) : Bool :=
  c.isAlpha || c.isDigit || c == '_' || c == '-'

/-- `bool(re.match(r'^[cls]{mn,mx}$', s))` for a single character class:
true iff some number `k` with `mn ≤ k ≤ mx` of leading class characters can be
consumed such that the `$` anchor matches at position `k`. -/
def matchRepDollar (p : Char → Bool) : Nat → Nat → List Char → Bool
  | mn, 0, cs => mn == 0 && dollarMatches cs
  | mn, mx' + 1, cs =>
    (mn == 0 && dollarMatches cs) ||
      match cs with
      | c :: rest => p c && matchRepDollar p (mn - 1) mx' rest
      | [] => false

/-- `validate_bot_name` (src/app/utils.py lines 67-73):
`bool(re.match(r'^[a-zA-Z0-9_-]{3,50}$', name))` with Python `re` semantics. -/
def validate_bot_name (name : List Char) : Bool :=
  matchRepDollar isNameChar 3 50 name

/-! ### Start-command validation (src/app/utils.py lines 18-56) -/

/-- Case folding used to model `re.IGNORECASE` over the ASCII-only deny-list
patterns. -/
def toLowerList (l : List Char) : List Char := l.map Char.toLower

/-- Helper for the `curl.*\|` / `wget.*\|` patterns: `.` does not match a
newline, so a `'|'` must appear before any `'\n'`. -/
def pipeBeforeNewline : List Char → Bool
  | [] => false
  | '|' :: _ => true
  | '\n' :: _ => false
  | _ :: rest => pipeBeforeNewline rest

/-- `re.search(r'w.*\|', s)` for a literal word `w`: the word occurs and a
pipe follows it on the same line. -/
def searchWordThenPipe (word : List Char) : List Char → Bool
  | [] => false
  | c :: rest =>
    (word.isPrefixOf (c :: rest) && pipeBeforeNewline ((c :: rest).drop word.length))
      || searchWordThenPipe word rest

/-- `validate_start_command` (src/app/utils.py lines 18-56): length bound and
the deny-list of dangerous patterns, searched case-insensitively. -/
def validate_start_command (command : List Char) : Bool :=
  if command.isEmpty || command.length > 500 then false
  else
    let lc := toLowerList command
    if containsSub lc "&&".data || containsSub lc "||".data
        || containsSub lc ";".data || containsSub lc "|".data
        || containsSub lc ">".data || containsSub lc "<".data
        || containsSub lc "`".data || containsSub lc "$(".data
        || containsSub lc "bash".data || containsSub lc "sh ".data
        || containsSub lc "/bin/".data || containsSub lc "rm ".data
        || containsSub lc "dd ".data || containsSub lc "mkfs".data
        || searchWordThenPipe "curl".data lc || searchWordThenPipe "wget".data lc
    then false
    else true

/-! ### Runtime registry and Sandbox Driver (src/app/docker.py)

Every call to the Docker daemon is parametrised by an explicit outcome value
describing the daemon's answer, so each driver function becomes total. -/

/-- An entry of `RUNTIME_REGISTRY` (src/app/docker.py lines 58-73). -/
structure RuntimeConfig where
  image : String
  build_cmd : String
  default_start : String
  working_dir : String
  allowed_extensions : List (List Char)
  deriving DecidableEq, Repr

/-- `RUNTIME_REGISTRY` (src/app/docker.py lines 58-73). The dict has an entry
for every `BotRuntime`, so `get_runtime_config` never raises and is the same
total function. -/
def RUNTIME_REGISTRY : BotRuntime → RuntimeConfig
  | .PYTHON =>
    { image := "python:3.11-slim"
      build_cmd := "pip install --no-cache-dir -r requirements.txt"
      default_start := "python main.py"
      working_dir := "/app"
      allowed_extensions := [".py".data, ".txt".data, ".json".data, ".yaml".data, ".yml".data] }
  | .NODE =>
    { image := "node:20-alpine"
      build_cmd := "npm install"
      default_start := "node index.js"
      working_dir := "/app"
      allowed_extensions := [".js".data, ".json".data, ".ts".data] }

/-- What the daemon reports for a container when queried
(`client.containers.get` + `container.status` / `container.attrs`):
the container is missing, the API errors out, or the container exists with a
status string and an optional `State.ExitCode` attribute. -/
inductive ContainerQuery
  | missing
  | apiError (msg : String)
  | state (status : String) (exitCode : Option Int)
  deriving DecidableEq, Repr

/-- Python `str.lower()`; Docker status strings are ASCII, where it agrees
with per-character `Char.toLower`. -/
def pyLower (s : String) : String := String.mk (s.data.map Char.toLower)

/-- `get_container_status` (src/app/docker.py lines 258-285): maps the Docker
status (lower-cased) to a `BotStatus`; a missing `State.ExitCode` attribute
defaults to `0`. -/
def get_container_status (q : ContainerQuery) : BotStatus :=
  match q with
  | .missing => .STOPPED
  | .apiError _ => .STOPPED
  | .state s ec =>
    let ds := pyLower s
    if ds = "running" then .RUNNING
    else if ds = "exited" ∨ ds = "dead" then
      if ec.getD 0 ≠ 0 then .CRASHED else .STOPPED
    else if ds = "created" then .CREATED
    else .STOPPED

/-- How iterating the Docker SDK's `container.logs(stream=True, follow=True)`
generator ends: normally, with `NotFound`, or with `APIError`. -/
inductive LogStreamEnd
  | ended
  | notFound
  | apiError (msg : String)
  deriving DecidableEq, Repr

/-- A follow-log source: the (UTF-8 decoded, `errors='replace'`) chunks the
daemon produced before the iteration ended, and how it ended. A `NotFound`
from the initial `containers.get` is the case `chunks = []`. -/
structure LogSource where
  chunks : List String
  fin : LogStreamEnd
  deriving DecidableEq, Repr

/-- `stream_logs` (src/app/docker.py lines 288-305): the generator never
raises for the two caught error classes; it turns them into ordinary yielded
lines. -/
def stream_logs (src : LogSource) : List String :=
  src.chunks ++
    match src.fin with
    | .ended => []
    | .notFound => ["Container not found"]
    | .apiError m => ["Error streaming logs: " ++ m]

/-- Daemon outcome of `client.containers.create` (plus the image pull)
inside `create_container`. -/
inductive CreateApi
  | ok (containerId : String)
  | apiError (msg : String)
  deriving DecidableEq, Repr

/-- `create_container` (src/app/docker.py lines 96-198): returns the new
container id, or raises `BadRequestException("Failed to create container: "
+ str(e))` on `APIError` — modelled as the `Except.error` carrying that
detail. The security options, mounts and resource limits it passes to the
daemon do not affect the claims below and are abstracted into the daemon
outcome. -/
def create_container (api : CreateApi) : Except String String :=
  match api with
  | .ok cid => .ok cid
  | .apiError m => .error ("Failed to create container: " ++ m)

/-- Daemon outcome of a get+start/stop/restart/remove call on an existing
handle. -/
inductive ContainerApi
  | ok
  | notFound
  | apiError (msg : String)
  deriving DecidableEq, Repr

/-- `start_container` (src/app/docker.py lines 201-217): `True` on success,
`False` on `NotFound` or `APIError` (the error message is only logged). -/
def start_container : ContainerApi → Bool
  | .ok => true
  | .notFound => false
  | .apiError _ => false

/-- `stop_container` (src/app/docker.py lines 220-236). -/
def stop_container : ContainerApi → Bool
  | .ok => true
  | .notFound => false
  | .apiError _ => false

/-- `restart_container` (src/app/docker.py lines 325-341). -/
def restart_container : ContainerApi → Bool
  | .ok => true
  | .notFound => false
  | .apiError _ => false

/-- `remove_container` (src/app/docker.py lines 239-255): an already-gone
container counts as removed. -/
def remove_container : ContainerApi → Bool
  | .ok => true
  | .notFound => true
  | .apiError _ => false

/-- Daemon outcome of `container.logs(tail=N)` in `get_recent_logs`. -/
inductive TailApi
  | ok (logs : String)
  | notFound
  | apiError (msg : String)
  deriving DecidableEq, Repr

/-- `get_recent_logs` (src/app/docker.py lines 308-322). -/
def get_recent_logs : TailApi → String
  | .ok l => l
  | .notFound => "Container not found"
  | .apiError m => "Error retrieving logs: " ++ m

/-! ### Persistent data model (src/app/models.py) -/

/-- A row of the `bots` table (src/app/models.py lines 82-107); `created_at`
is omitted (no claim mentions it). -/
structure Bot where
  id : Nat
  user_id : Nat
  plan_id : Nat
  runtime : BotRuntime
  name : List Char
  container_id : Option String
  status : BotStatus
  start_cmd : Option (List Char)
  source_type : Option SourceType
  deriving DecidableEq, Repr

/-- A row of the `plans` table (src/app/models.py lines 65-79). -/
structure Plan where
  id : Nat
  name : String
  max_bots : Nat
  cpu_limit : String
  ram_limit : String
  deriving DecidableEq, Repr

/-- The relational store, with the autoincrement counter for bot primary
keys. -/
structure DB where
  bots : List Bot
  plans : List Plan
  nextId : Nat
  deriving DecidableEq, Repr

def findBot (db : DB) (i : Nat) : Option Bot :=
  db.bots.find? (fun b => b.id == i)

def findPlan (db : DB) (i : Nat) : Option Plan :=
  db.plans.find? (fun p => p.id == i)

/-- An ORM mutation + commit of the bot row with primary key `i`. -/
def updateBot (db : DB) (i : Nat) (f : Bot → Bot) : DB :=
  { db with bots := db.bots.map (fun b => if b.id == i then f b else b) }

/-- `db.delete(bot)` + commit. -/
def removeBotRow (db : DB) (i : Nat) : DB :=
  { db with bots := db.bots.filter (fun b => b.id != i) }

/-- `db.query(Bot).filter(Bot.user_id == u).count()`. -/
def countBotsOf (db : DB) (u : Nat) : Nat :=
  (db.bots.filter (fun b => b.user_id == u)).length

/-! ### Lifecycle Manager (src/app/bots.py) -/

/-- The `HTTPException` subclasses of src/app/utils.py lines 152-179, with
their `detail` strings. -/
inductive Err
  | badRequest (detail : String)
  | notFound (detail : String)
  | forbidden (detail : String)
  | conflict (detail : String)
  deriving DecidableEq, Repr

/-- `verify_bot_ownership` (src/app/bots.py lines 60-73). -/
def verify_bot_ownership (db : DB) (botId u : Nat) : Except Err Bot :=
  match findBot db botId with
  | none => .error (.notFound "Bot not found")
  | some bot =>
    if bot.user_id ≠ u then .error (.forbidden "You don't have access to this bot")
    else .ok bot

/-- The request body `BotCreate` (src/app/bots.py lines 35-39). -/
structure BotCreate where
  name : List Char
  runtime : BotRuntime
  start_cmd : Option (List Char)
  plan_id : Nat
  deriving DecidableEq, Repr

/-- The guard `bot_data.start_cmd and not validate_start_command(...)`
(src/app/bots.py line 122): `None` and the empty string are falsy and skip
the validation. -/
def startCmdRejected : Option (List Char) → Bool
  | none => false
  | some c => !c.isEmpty && !(validate_start_command c)

/-- The row inserted by `create_bot` (src/app/bots.py lines 148-158): state
CREATED, no container handle, no source type; the primary key comes from the
autoincrement counter. -/
def newBot (db : DB) (u : Nat) (d : BotCreate) : Bot :=
  { id := db.nextId, user_id := u, plan_id := d.plan_id, runtime := d.runtime
    name := d.name, container_id := none, status := .CREATED
    start_cmd := d.start_cmd, source_type := none }

/-- `create_bot` (src/app/bots.py lines 100-179): name validation, start
command validation, plan lookup, quota check against the requested plan,
per-owner name-uniqueness check, then insertion of a `CREATED` bot with a
null container handle. Fresh primary keys come from the autoincrement
counter. The artifact-directory creation and audit log have no effect on the
store's bot and plan rows. -/
def create_bot (db : DB) (u : Nat) (d : BotCreate) : DB × Except Err Bot :=
  if !(validate_bot_name d.name) then
    (db, .error (.badRequest
      "Invalid bot name. Use 3-50 alphanumeric characters, hyphens, or underscores."))
  else if startCmdRejected d.start_cmd then
    (db, .error (.badRequest "Invalid start command. Command contains dangerous patterns."))
  else
    match findPlan db d.plan_id with
    | none => (db, .error (.notFound "Plan not found"))
    | some plan =>
      if plan.max_bots ≤ countBotsOf db u then
        (db, .error (.conflict ("Bot limit reached. Your plan allows maximum "
          ++ toString plan.max_bots ++ " bots.")))
      else if db.bots.any (fun b => b.user_id == u && b.name == d.name) then
        (db, .error (.conflict "A bot with this name already exists"))
      else
        let bot : Bot := newBot db u d
        ({ db with bots := db.bots ++ [bot], nextId := db.nextId + 1 }, .ok bot)

/-- Starlette `HTTPException.__str__`: `f"{status_code}: {detail}"`. The only
exception class raised inside `start_bot`'s `try` block is
`BadRequestException`, whose status code is 400. -/
def strBadRequest (detail : String) : String := "400: " ++ detail

/-- The external-world outcomes `start_bot` can observe. -/
structure StartEnv where
  dirNonEmpty : Bool
  createApi : CreateApi
  startApi : ContainerApi
  deriving DecidableEq, Repr

/-- `start_bot` (src/app/bots.py lines 309-376): ownership, plan lookup,
artifact-dir emptiness check, then the `try` block: create the container if
the bot has no handle (persisting the handle on success), start it, and set
status `RUNNING`; any exception in the block sets status `CRASHED` (with
whatever handle state was committed) and re-raises as
`BadRequestException("Failed to start bot: " + str(e))`. -/
def start_bot (db : DB) (u botId : Nat) (env : StartEnv) : DB × Except Err Bot :=
  match verify_bot_ownership db botId u with
  | .error e => (db, .error e)
  | .ok bot =>
    match findPlan db bot.plan_id with
    | none => (db, .error (.notFound "Plan not found"))
    | some _plan =>
      if !env.dirNonEmpty then
        (db, .error (.badRequest "No files uploaded. Please upload bot code first."))
      else
        match bot.container_id with
        | none =>
          match create_container env.createApi with
          | .error d =>
            (updateBot db botId (fun b => { b with status := .CRASHED }),
             .error (.badRequest ("Failed to start bot: " ++ strBadRequest d)))
          | .ok cid =>
            let db1 := updateBot db botId (fun b => { b with container_id := some cid })
            if start_container env.startApi then
              (updateBot db1 botId (fun b => { b with status := .RUNNING }),
               .ok { bot with container_id := some cid, status := .RUNNING })
            else
              (updateBot db1 botId (fun b => { b with status := .CRASHED }),
               .error (.badRequest
                 ("Failed to start bot: " ++ strBadRequest "Failed to start container")))
        | some _ =>
          if start_container env.startApi then
            (updateBot db botId (fun b => { b with status := .RUNNING }),
             .ok { bot with status := .RUNNING })
          else
            (updateBot db botId (fun b => { b with status := .CRASHED }),
             .error (.badRequest
               ("Failed to start bot: " ++ strBadRequest "Failed to start container")))

/-- `stop_bot` (src/app/bots.py lines 381-418). -/
def stop_bot (db : DB) (u botId : Nat) (stopApi : ContainerApi) : DB × Except Err Bot :=
  match verify_bot_ownership db botId u with
  | .error e => (db, .error e)
  | .ok bot =>
    match bot.container_id with
    | none => (db, .error (.badRequest "Bot has no container"))
    | some _ =>
      if stop_container stopApi then
        (updateBot db botId (fun b => { b with status := .STOPPED }),
         .ok { bot with status := .STOPPED })
      else (db, .error (.badRequest "Failed to stop container"))

/-- `restart_bot` (src/app/bots.py lines 423-460). -/
def restart_bot (db : DB) (u botId : Nat) (restartApi : ContainerApi) : DB × Except Err Bot :=
  match verify_bot_ownership db botId u with
  | .error e => (db, .error e)
  | .ok bot =>
    match bot.container_id with
    | none => (db, .error (.badRequest "Bot has no container"))
    | some _ =>
      if restart_container restartApi then
        (updateBot db botId (fun b => { b with status := .RUNNING }),
         .ok { bot with status := .RUNNING })
      else (db, .error (.badRequest "Failed to restart container"))

/-- `delete_bot` (src/app/bots.py lines 465-496): removes the container if a
handle is present (outcome irrelevant to the store), removes the artifact
directory, deletes the row. -/
def delete_bot (db : DB) (u botId : Nat) : DB × Except Err Unit :=
  match verify_bot_ownership db botId u with
  | .error e => (db, .error e)
  | .ok _bot => (removeBotRow db botId, .ok ())

/-! ### Artifact Store: the upload endpoint (src/app/bots.py lines 211-304)

The bot's artifact directory is modelled as the list of entry names it
contains. -/

/-- Artifact-directory contents. -/
abbrev Dir := List (List Char)

/-- The cleaning loop (src/app/bots.py lines 232-237): everything except a
`.gitkeep` entry is deleted. -/
def clearDir (dir : Dir) : Dir := dir.filter (· == ".gitkeep".data)

/-- Split a string on a character (keeping empty fields), as CPython's pure
path parser does before discarding empty and `"."` components. -/
def splitOnChar (c : Char) : List Char → List (List Char)
  | [] => [[]]
  | d :: rest =>
    let r := splitOnChar c rest
    if d == c then [] :: r
    else
      match r with
      | h :: t => (d :: h) :: t
      | [] => [[d]]

/-- `PurePosixPath(m).parts` without the root entry: non-empty, non-`"."`
components. -/
def pathParts (m : List Char) : List (List Char) :=
  (splitOnChar '/' m).filter (fun p => !p.isEmpty && p != ['.'])

/-- `PurePosixPath(m).is_absolute()`. -/
def isAbsolutePath (m : List Char) : Bool :=
  match m with
  | '/' :: _ => true
  | _ => false

/-- The traversal test of src/app/bots.py line 256:
`member_path.is_absolute() or ".." in member_path.parts`. -/
def hasTraversal (m : List Char) : Bool :=
  isAbsolutePath m || (pathParts m).any (· == ['.', '.'])

/-- `member.endswith('/')` (src/app/bots.py line 260). -/
def endsWithSlash (m : List Char) : Bool :=
  match m.getLast? with
  | some '/' => true
  | _ => false

/-- `PurePosixPath(m).name`: the last component. -/
def pathName (m : List Char) : List Char :=
  (pathParts m).getLastD []

/-- CPython `PurePath.suffix` of a name: `i = name.rfind('.')`; `name[i:]` if
`0 < i < len(name) - 1`, else `''`. -/
def pySuffix (name : List Char) : List Char :=
  match lastIdxOf '.' name with
  | none => []
  | some i => if 0 < i ∧ i < name.length - 1 then name.drop i else []

/-- Python 3.11 `str.format` of a `str`-mixin enum member includes the class
name, so `f"{bot.runtime}"` renders as below. -/
def runtimeRepr : BotRuntime → String
  | .PYTHON => "BotRuntime.PYTHON"
  | .NODE => "BotRuntime.NODE"

/-- The extension-rejection detail (src/app/bots.py lines 265-267 and
283-286). -/
def extNotAllowedMsg (ext : List Char) (rt : BotRuntime) : String :=
  "File type " ++ String.mk ext ++ " not allowed for " ++ runtimeRepr rt ++ " runtime"

/-- The member-validation loop of the zip branch (src/app/bots.py lines
253-267): the `BadRequestException` of the first offending member, if any.
Directory members (trailing `/`) skip the extension check; an empty extension
passes it. -/
def checkMembers (rt : BotRuntime) : List (List Char) → Option Err
  | [] => none
  | m :: rest =>
    if hasTraversal m then some (.badRequest "Invalid file path in zip")
    else if endsWithSlash m then checkMembers rt rest
    else
      let ext := pySuffix (pathName m)
      if !ext.isEmpty && !((RUNTIME_REGISTRY rt).allowed_extensions.contains ext) then
        some (.badRequest (extNotAllowedMsg ext rt))
      else checkMembers rt rest

/-- An uploaded payload: the client-supplied filename and, when the bytes
parse as a zip archive, its member names in order (`none` = `BadZipFile`).
The file contents themselves are irrelevant to every claim. -/
structure Upload where
  filename : List Char
  zipMembers : Option (List (List Char))
  deriving DecidableEq, Repr

/-- `upload_bot_files` (src/app/bots.py lines 211-304). Steps: ownership,
clearing of the directory, filename sanitization (`file.filename or
"upload"`), then either the zip branch — the archive is saved into the bot
directory first, members are checked, and only on success extracted and the
archive unlinked — or the single-file branch, whose extension check has no
empty-extension exemption. Returns the new store, the final directory
contents, and the stored filename or the raised error. -/
def upload_bot_files (db : DB) (u botId : Nat) (up : Upload) (dir : Dir) :
    DB × Dir × Except Err (List Char) :=
  match verify_bot_ownership db botId u with
  | .error e => (db, dir, .error e)
  | .ok bot =>
    let cleared := clearDir dir
    let fname0 := if up.filename.isEmpty then "upload".data else up.filename
    let fname := sanitize_filename fname0
    if ".zip".data.isSuffixOf fname then
      let withZip := cleared ++ [fname]
      match up.zipMembers with
      | none => (db, withZip, .error (.badRequest "Invalid zip file"))
      | some ms =>
        match checkMembers bot.runtime ms with
        | some e => (db, withZip, .error e)
        | none =>
          let afterUnlink := (withZip ++ ms).filter (· != fname)
          (updateBot db botId (fun b => { b with source_type := some .ZIP }),
           afterUnlink, .ok fname)
    else
      let ext := pySuffix (pathName fname)
      if !((RUNTIME_REGISTRY bot.runtime).allowed_extensions.contains ext) then
        (db, cleared, .error (.badRequest (extNotAllowedMsg ext bot.runtime)))
      else
        (updateBot db botId (fun b => { b with source_type := some .FILE }),
         cleared ++ [fname], .ok fname)

/-! ### Log Broker (src/app/sockets.py) -/

/-- Starlette `HTTPException.__str__` (`f"{status_code}: {detail}"`) for each
of the application's error classes. -/
def strErr : Err → String
  | .badRequest d => "400: " ++ d
  | .notFound d => "404: " ++ d
  | .forbidden d => "403: " ++ d
  | .conflict d => "409: " ++ d

/-- An observable action the websocket handler performs on the subscriber's
socket: a text frame or an explicit close with a code. A handler that
returns without an explicit close leaves the close to the framework (which
performs a normal closure); such a return produces no `close` event. -/
inductive WsEvent
  | text (msg : String)
  | close (code : Nat)
  deriving DecidableEq, Repr

/-- External observations of one `bot_logs_websocket` session: who the token
resolves to, the daemon's answer to the recent-logs tail, the follow-stream
source, and — when iterating the pump raises an exception that is not one of
the two classes `stream_logs` catches (e.g. the lazy Docker-client
initialisation failing) — the number of lines delivered before it and its
message. The subscriber is assumed connected throughout (`send_text` does not
raise). -/
structure WsSession where
  authedUser : Option Nat
  tailApi : TailApi
  streamSrc : LogSource
  pumpError : Option (Nat × String)
  deriving DecidableEq, Repr

/-- `bot_logs_websocket` (src/app/sockets.py lines 46-115), as the list of
socket actions it performs. The inner `stream_to_websocket` catches any
exception of the pump itself, sends a single `"Error: ..."` frame and
returns; the handler then returns without any explicit close. The outer
`except` clauses are unreachable in this model because nothing re-raises
after the inner handler. -/
def bot_logs_websocket (db : DB) (botId : Nat) (s : WsSession) : List WsEvent :=
  match s.authedUser with
  | none => [.text "Authentication failed", .close 1008]
  | some uid =>
    match verify_bot_ownership db botId uid with
    | .error e => [.text ("Authorization failed: " ++ strErr e), .close 1008]
    | .ok bot =>
      match bot.container_id with
      | none => [.text "Bot has no container. Please start the bot first.", .close 1000]
      | some _ =>
        let recent := get_recent_logs s.tailApi
        let pre : List WsEvent :=
          if recent ≠ "" then
            [.text ("=== Recent Logs ===\n" ++ recent ++ "\n=== Live Stream ===\n")]
          else []
        let lines := stream_logs s.streamSrc
        match s.pumpError with
        | none => pre ++ lines.map .text
        | some (n, m) => pre ++ (lines.take n).map .text ++ [.text ("Error: " ++ m)]

/-! ### The lifecycle transition system -/

/-- One request against the Lifecycle Manager, bundled with the external
outcomes that request observes. -/
inductive Op
  | create (u : Nat) (d : BotCreate)
  | upload (u botId : Nat) (up : Upload) (dir : Dir)
  | start (u botId : Nat) (env : StartEnv)
  | stop (u botId : Nat) (api : ContainerApi)
  | restart (u botId : Nat) (api : ContainerApi)
  | delete (u botId : Nat)
  deriving DecidableEq, Repr

/-- The persistent store after the request (whether it succeeded or raised). -/
def applyOp (db : DB) : Op → DB
  | .create u d => (create_bot db u d).1
  | .upload u b up dir => (upload_bot_files db u b up dir).1
  | .start u b env => (start_bot db u b env).1
  | .stop u b api => (stop_bot db u b api).1
  | .restart u b api => (restart_bot db u b api).1
  | .delete u b => (delete_bot db u b).1

/-- Well-formedness of the store: primary keys are unique and below the
autoincrement counter (what the relational schema guarantees). -/
def WFdb (db : DB) : Prop :=
  (∀ b ∈ db.bots, b.id < db.nextId) ∧ (db.bots.map (fun b => b.id)).Nodup

/-- The invariant claimed by the specification: a null sandbox handle implies
state CREATED. -/
def NullHandleCreated (db : DB) : Prop :=
  ∀ b ∈ db.bots, b.container_id = none → b.status = .CREATED

/-- Per-bot form of the corrected invariant: a null handle implies state
CREATED or CRASHED. -/
def BotOk (b : Bot) : Prop :=
  b.container_id = none → b.status = .CREATED ∨ b.status = .CRASHED

/-- The corrected invariant. -/
def NullHandleInv (db : DB) : Prop := ∀ b ∈ db.bots, BotOk b

/-- The quota invariant claimed by the specification, read over the data
model (plans are attached to bots, not users): every owner's bot count is
bounded by the `max_bots` of each plan their bots are on. -/
def PlanQuotaInv (db : DB) : Prop :=
  ∀ b ∈ db.bots, ∀ p ∈ db.plans, p.id = b.plan_id →
    countBotsOf db b.user_id ≤ p.max_bots

def testPlanFree : Plan :=
  { id := 1, name := "Free", max_bots := 1, cpu_limit := "0.5", ram_limit := "256m" }

def testPlanBasic : Plan :=
  { id := 2, name := "Basic", max_bots := 3, cpu_limit := "1.0", ram_limit := "512m" }

def testBot : Bot :=
  { id := 1, user_id := 1, plan_id := 1, runtime := .PYTHON, name := "echo".data
    container_id := none, status := .CREATED, start_cmd := none, source_type := none }

def testDB : DB := { bots := [testBot], plans := [testPlanFree, testPlanBasic], nextId := 2 }

def failCreateEnv : StartEnv :=
  { dirNonEmpty := true, createApi := .apiError "boom", startApi := .ok }

def testDB2 : DB :=
  { bots := [{ testBot with container_id := some "c1" }]
    plans := [testPlanFree, testPlanBasic], nextId := 2 }

def failStartEnv : StartEnv :=
  { dirNonEmpty := true, createApi := .ok "unused", startApi := .apiError "disk full" }

def evilZip : Upload := { filename := "evil.zip".data, zipMembers := some ["../etc/passwd".data] }

def dotfileUp : Upload := { filename := ".env".data, zipMembers := none }

def dQ1 : BotCreate := { name := "alpha".data, runtime := .PYTHON, start_cmd := none, plan_id := 1 }

def dQ2 : BotCreate := { name := "beta".data, runtime := .PYTHON, start_cmd := none, plan_id := 2 }

def dbQ0 : DB := { bots := [], plans := [testPlanFree, testPlanBasic], nextId := 1 }

def errSession : WsSession :=
  { authedUser := some 1, tailApi := .ok "old"
    streamSrc := { chunks := ["hi"], fin := .ended }, pumpError := some (1, "boom") }

/-! ## Claim C4: the status mapping of `get_container_status` -/

/-- C4 — confirmed. For every sandbox handle the status query maps the
runtime state exactly as claimed: `running` to RUNNING, `created` to
CREATED, `exited`/`dead` to CRASHED when the exit code is non-zero and to
STOPPED otherwise, and any other state or a missing sandbox to STOPPED
(src/app/docker.py lines 258-285). -/
theorem c4_status_mapping :
    (∀ ec, get_container_status (.state "running" ec) = .RUNNING) ∧
    (∀ ec, get_container_status (.state "created" ec) = .CREATED) ∧
    (∀ ec : Int, ec ≠ 0 → get_container_status (.state "exited" (some ec)) = .CRASHED) ∧
    (∀ ec : Int, ec ≠ 0 → get_container_status (.state "dead" (some ec)) = .CRASHED) ∧
    get_container_status (.state "exited" (some 0)) = .STOPPED ∧
    get_container_status (.state "dead" (some 0)) = .STOPPED ∧
    (∀ s ec, pyLower s ∉ (["running", "created", "exited", "dead"] : List String) →
      get_container_status (.state s ec) = .STOPPED) ∧
    get_container_status .missing = .STOPPED := by
  refine ⟨fun ec => rfl, fun ec => rfl, fun ec h => ?_, fun ec h => ?_, rfl, rfl,
    fun s ec h => ?_, rfl⟩
  · show (if ec ≠ 0 then BotStatus.CRASHED else BotStatus.STOPPED) = BotStatus.CRASHED
    rw [if_pos h]
  · show (if ec ≠ 0 then BotStatus.CRASHED else BotStatus.STOPPED) = BotStatus.CRASHED
    rw [if_pos h]
  · have h1 : ¬ pyLower s = "running" := fun e => h (by rw [e]; decide)
    have h2 : ¬ (pyLower s = "exited" ∨ pyLower s = "dead") := by
      rintro (e | e) <;> exact h (by rw [e]; decide)
    have h3 : ¬ pyLower s = "created" := fun e => h (by rw [e]; decide)
    simp only [get_container_status]
    rw [if_neg h1, if_neg h2, if_neg h3]

/-- C4 witness: a concrete instance of each hypothesis-guarded conjunct. -/
theorem c4_status_mapping_witness :
    get_container_status (.state "exited" (some 137)) = .CRASHED ∧
    get_container_status (.state "dead" (some 1)) = .CRASHED ∧
    get_container_status (.state "paused" none) = .STOPPED := by
  refine ⟨c4_status_mapping.2.2.1 137 (by decide), c4_status_mapping.2.2.2.1 1 (by decide),
    c4_status_mapping.2.2.2.2.2.2.1 "paused" none (by decide)⟩

/-! ## Claim C10: the follow-log stream never raises -/

/-- C10 — confirmed. The follow-stream is a total function into lines: a
missing sandbox yields the literal line "Container not found", a runtime API
error yields a single line beginning "Error streaming logs:", and each error
rendering is indistinguishable, by framing alone, from a genuine log stream
that produced the very same line (src/app/docker.py lines 288-305). -/
theorem c10_stream_logs_error_lines :
    (∀ chunks, stream_logs ⟨chunks, .notFound⟩ = chunks ++ ["Container not found"]) ∧
    (∀ chunks m, stream_logs ⟨chunks, .apiError m⟩ = chunks ++ ["Error streaming logs: " ++ m]) ∧
    (∀ chunks, stream_logs ⟨chunks ++ ["Container not found"], .ended⟩ =
      stream_logs ⟨chunks, .notFound⟩) ∧
    (∀ chunks m, stream_logs ⟨chunks ++ ["Error streaming logs: " ++ m], .ended⟩ =
      stream_logs ⟨chunks, .apiError m⟩) := by
  refine ⟨fun chunks => rfl, fun chunks m => rfl, fun chunks => ?_, fun chunks m => ?_⟩
  · simp [stream_logs]
  · simp [stream_logs]

/-! ## Claim C9: `validate_bot_name` accepts a single trailing newline -/

/-- Key regex fact: a `{mn,mx}` repetition of class characters followed by
`$` matches a string of class characters plus one trailing newline, because
Python's `$` also matches just before a final newline. -/
theorem matchRepDollar_trailing_newline (p : Char → Bool) :
    ∀ (s : List Char) (mn mx : Nat), (∀ c ∈ s, p c = true) →
      mn ≤ s.length → s.length ≤ mx →
      matchRepDollar p mn mx (s ++ ['\n']) = true := by
  intro s
  induction s with
  | nil =>
    intro mn mx _ hmn _
    have hmn0 : mn = 0 := Nat.le_zero.mp hmn
    subst hmn0
    have hd : dollarMatches ['\n'] = true := by decide
    cases mx with
    | zero => simp [matchRepDollar, hd]
    | succ mx' => simp [matchRepDollar, hd]
  | cons c rest ih =>
    intro mn mx hall hmn hmx
    cases mx with
    | zero => exact absurd hmx (by simp)
    | succ mx' =>
      have hrec : matchRepDollar p (mn - 1) mx' (rest ++ ['\n']) = true :=
        ih (mn - 1) mx' (fun d hd => hall d (List.mem_cons_of_mem c hd))
          (by simp at hmn ⊢; omega) (by simp at hmx ⊢; omega)
      have hc : p c = true := hall c (List.mem_cons_self c rest)
      simp [matchRepDollar, hc, hrec]

/-- C9 — confirmed. `'\n'` is outside the name character class, yet every
string of 3 to 50 class characters followed by exactly one trailing newline
is accepted by `validate_bot_name` (src/app/utils.py lines 67-73), because
`re.match`'s `$` anchor matches before a final newline. -/
theorem c9_trailing_newline_accepted :
    isNameChar '\n' = false ∧
    ∀ s : List Char, (∀ c ∈ s, isNameChar c = true) →
      3 ≤ s.length → s.length ≤ 50 →
      validate_bot_name (s ++ ['\n']) = true := by
  refine ⟨by decide, fun s hall h3 h50 => ?_⟩
  exact matchRepDollar_trailing_newline isNameChar s 3 50 hall h3 h50

/-- C9 witness: the concrete name `"abc\n"` is accepted. -/
theorem c9_trailing_newline_accepted_witness :
    validate_bot_name ("abc".data ++ ['\n']) = true :=
  c9_trailing_newline_accepted.2 "abc".data (by decide) (by decide) (by decide)

/-! ## Claim C7: idempotence of `sanitize_filename` -/

theorem takeWhile_all {p : Char → Bool} :
    ∀ l : List Char, (∀ c ∈ l, p c = true) → l.takeWhile p = l := by
  intro l h
  induction l with
  | nil => rfl
  | cons c rest ih =>
    rw [List.takeWhile_cons, h c (List.mem_cons_self c rest)]
    rw [ih (fun d hd => h d (List.mem_cons_of_mem c hd))]
    rfl

theorem basename_all (l : List Char) (h : ∀ c ∈ l, c ≠ '/') : basename l = l := by
  unfold basename
  have ht : l.reverse.takeWhile (· != '/') = l.reverse := by
    apply takeWhile_all
    intro c hc
    rw [List.mem_reverse] at hc
    simpa using h c hc
  rw [ht, List.reverse_reverse]

theorem filter_all_id {p : Char → Bool} :
    ∀ l : List Char, (∀ c ∈ l, p c = true) → l.filter p = l := by
  intro l h
  induction l with
  | nil => rfl
  | cons c rest ih =>
    rw [List.filter_cons, h c (List.mem_cons_self c rest)]
    simp only [if_true]
    rw [ih (fun d hd => h d (List.mem_cons_of_mem c hd))]

theorem map_id_on {f : Char → Char} :
    ∀ l : List Char, (∀ c ∈ l, f c = c) → l.map f = l := by
  intro l h
  induction l with
  | nil => rfl
  | cons c rest ih =>
    rw [List.map_cons, h c (List.mem_cons_self c rest),
      ih (fun d hd => h d (List.mem_cons_of_mem c hd))]

theorem containsSub_tail {c : Char} {rest pat : List Char}
    (h : containsSub (c :: rest) pat = false) : containsSub rest pat = false := by
  simp only [containsSub, Bool.or_eq_false_iff] at h
  exact h.2

theorem removeDotDot_of_no_dotdot :
    ∀ l : List Char, hasDotDot l = false → removeDotDot l = l := by
  intro l
  induction l using removeDotDot.induct with
  | case1 => intro h; rfl
  | case2 rest ih =>
    intro h
    exfalso
    simp [hasDotDot, containsSub, List.isPrefixOf] at h
  | case3 => intro h; rfl
  | case4 c rest hne ih =>
    intro h
    have h' : hasDotDot (c :: rest) = false := containsSub_tail h
    simp only [removeDotDot]
    rw [ih h']
  | case5 c rest h1 h2 h3 ih =>
    intro h
    have h' : hasDotDot rest = false := containsSub_tail h
    simp only [removeDotDot]
    rw [ih h']

theorem mem_of_mem_splitext_fst {c : Char} {l : List Char}
    (h : c ∈ (splitext l).1) : c ∈ l := by
  simp only [splitext] at h
  split at h
  · split at h
    · exact h
    · exact List.take_subset _ _ h
  · exact h

theorem mem_of_mem_splitext_snd {c : Char} {l : List Char}
    (h : c ∈ (splitext l).2) : c ∈ l := by
  simp only [splitext] at h
  split at h
  · split at h
    · exact absurd h (List.not_mem_nil c)
    · exact List.drop_subset _ _ h
  · exact absurd h (List.not_mem_nil c)

theorem mem_of_mem_truncate255 {c : Char} {l : List Char}
    (h : c ∈ truncate255 l) : c ∈ l := by
  unfold truncate255 at h
  split at h
  · rcases List.mem_append.mp h with h1 | h2
    · exact mem_of_mem_splitext_fst (List.take_subset _ _ h1)
    · exact mem_of_mem_splitext_snd h2
  · exact h

/-- Every character of a sanitized filename is in the safe class: the
`re.sub` step maps everything else to `'_'`, and the truncation step only
selects characters. -/
theorem sanitize_filename_chars_safe (l : List Char) :
    ∀ c ∈ sanitize_filename l, isSafeChar c = true := by
  intro c hc
  simp only [sanitize_filename] at hc
  have hc2 := mem_of_mem_truncate255 hc
  rcases List.mem_map.mp hc2 with ⟨d, _, rfl⟩
  by_cases hd : isSafeChar d = true
  · rw [if_pos hd]; exact hd
  · rw [if_neg hd]; decide

/-! The `lastIdxOf` / `splitext` facts needed to show that the truncation
step is idempotent on its own outputs (as long as they contain no `".."`):
when the truncated form `name[:250] ++ ext` still exceeds 255 characters,
a second pass re-splits it at the very same extension dot and reproduces it
unchanged. -/

theorem lastIdxOf_foldl_step (c : Char) (l : List Char) (n : Nat) (init : Option Nat) :
    (List.range (n + 1)).foldl (fun acc i => if l.getD i ' ' == c then some i else acc) init =
      if l.getD n ' ' == c then some n
      else (List.range n).foldl (fun acc i => if l.getD i ' ' == c then some i else acc) init := by
  rw [List.range_succ, List.foldl_append]
  rfl

theorem lastIdxOf_none (c : Char) (l : List Char) (h : ∀ ch ∈ l, ch ≠ c) :
    lastIdxOf c l = none := by
  unfold lastIdxOf
  have key : ∀ n, n ≤ l.length →
      (List.range n).foldl (fun acc i => if l.getD i ' ' == c then some i else acc) none
        = none := by
    intro n
    induction n with
    | zero => intro _; rfl
    | succ k ih =>
      intro hle
      rw [lastIdxOf_foldl_step, ih (by omega), if_neg]
      have hk : l.getD k ' ' ∈ l := by
        rw [List.getD_eq_getElem l ' ' (by omega)]
        exact List.getElem_mem _
      simpa using h _ hk
  exact key l.length le_rfl

theorem lastIdxOf_last_dot (A E' : List Char) (hE : '.' ∉ E') :
    lastIdxOf '.' (A ++ '.' :: E') = some A.length := by
  unfold lastIdxOf
  have hbase : (List.range (A.length + 1)).foldl
      (fun acc i => if (A ++ '.' :: E').getD i ' ' == '.' then some i else acc) none
        = some A.length := by
    rw [lastIdxOf_foldl_step, if_pos]
    rw [List.getD_append_right _ _ _ _ le_rfl]
    simp
  have key : ∀ m, m ≤ E'.length →
      (List.range (A.length + 1 + m)).foldl
        (fun acc i => if (A ++ '.' :: E').getD i ' ' == '.' then some i else acc) none
          = some A.length := by
    intro m
    induction m with
    | zero => intro _; simpa using hbase
    | succ k ih =>
      intro hle
      have harr : A.length + 1 + (k + 1) = (A.length + 1 + k) + 1 := by omega
      rw [harr, lastIdxOf_foldl_step, ih (by omega), if_neg]
      rw [List.getD_append_right _ _ _ _ (by omega)]
      have hidx : A.length + 1 + k - A.length = k + 1 := by omega
      rw [hidx, List.getD_cons_succ]
      have hk : E'.getD k ' ' ∈ E' := by
        rw [List.getD_eq_getElem E' ' ' (by omega)]
        exact List.getElem_mem _
      intro hbeq
      exact hE (eq_of_beq hbeq ▸ hk)
  have hlen : (A ++ '.' :: E').length = A.length + 1 + E'.length := by
    simp; omega
  rw [hlen]
  exact key E'.length le_rfl

/-- On a slash-free string, `splitext` splits at the last dot unless the
whole prefix before it consists of dots. -/
theorem splitext_of_no_slash (z : List Char) (hns : lastIdxOf '/' z = none) :
    splitext z =
      match lastIdxOf '.' z with
      | none => (z, [])
      | some dz =>
        if (z.take dz).all (· == '.') then (z, []) else (z.take dz, z.drop dz) := by
  unfold splitext
  rw [hns]
  cases hdz : lastIdxOf '.' z with
  | none => rfl
  | some dz =>
    simp only []
    rw [if_pos (by omega : ((dz : Int) > (-1 : Int)))]
    have h0 : ((-1 : Int) + 1).toNat = 0 := rfl
    have h1 : ((dz : Int)).toNat = dz := Int.toNat_natCast dz
    rw [h0, h1]
    simp

theorem containsSub_append_of_isPrefixOf {pat suf : List Char}
    (hpre : pat.isPrefixOf suf = true) :
    ∀ pre : List Char, containsSub (pre ++ suf) pat = true := by
  intro pre
  induction pre with
  | nil =>
    cases suf with
    | nil =>
      have hp : pat = [] := by
        cases pat with
        | nil => rfl
        | cons a b => simp [List.isPrefixOf] at hpre
      subst hp
      rfl
    | cons s ss => simp [containsSub, hpre]
  | cons c rest ih => simp [containsSub, ih]

/-- Every string containing a dot splits as `A ++ '.' :: E'` at its *last*
dot. -/
theorem decomp_last_dot : ∀ z : List Char, '.' ∈ z →
    ∃ A E', z = A ++ '.' :: E' ∧ '.' ∉ E' := by
  intro z
  induction z with
  | nil => intro h; cases h
  | cons c rest ih =>
    intro h
    by_cases hr : '.' ∈ rest
    · rcases ih hr with ⟨A, E', heq, hE⟩
      exact ⟨c :: A, E', by rw [heq]; rfl, hE⟩
    · have hc : c = '.' := by
        rcases List.mem_cons.mp h with he | he
        · exact he.symm
        · exact absurd he hr
      exact ⟨[], rest, by simp [hc], hr⟩

theorem hasDotDot_of_dots_append (A E' : List Char) (hA : A ≠ [])
    (hall : A.all (· == '.') = true) :
    hasDotDot (A ++ '.' :: E') = true := by
  rcases List.eq_nil_or_concat A with rfl | ⟨B, a, rfl⟩
  · exact absurd rfl hA
  · have ha : a = '.' := by
      have hb := List.all_eq_true.mp hall a (by simp)
      simpa using hb
    subst ha
    rw [List.concat_eq_append, List.append_assoc]
    unfold hasDotDot
    exact containsSub_append_of_isPrefixOf (by simp [List.isPrefixOf]) B

/-- The truncation step is idempotent on any slash-free string whose
truncated form has no two adjacent dots: re-splitting `name[:250] ++ ext`
finds the same extension dot again (the prefix before it cannot be all dots,
or the truncated form would contain `".."`), so a second pass changes
nothing. -/
theorem truncate255_safe_idem (z : List Char)
    (hsafe : ∀ c ∈ z, isSafeChar c = true)
    (hdd : hasDotDot (truncate255 z) = false) :
    truncate255 (truncate255 z) = truncate255 z := by
  by_cases hlen : z.length > 255
  case neg =>
    have h1 : truncate255 z = z := by unfold truncate255; rw [if_neg hlen]
    rw [h1, h1]
  case pos =>
    have hns : lastIdxOf '/' z = none :=
      lastIdxOf_none '/' z (fun ch hch e => absurd (e ▸ hsafe ch hch) (by decide))
    by_cases hdot : '.' ∈ z
    case neg =>
      have hd : lastIdxOf '.' z = none :=
        lastIdxOf_none '.' z (fun ch hch e => hdot (e ▸ hch))
      have hw : truncate255 z = z.take 250 := by
        unfold truncate255
        rw [if_pos hlen, splitext_of_no_slash z hns, hd]
        simp
      rw [hw]
      unfold truncate255
      rw [if_neg (by simp [List.length_take])]
    case pos =>
      rcases decomp_last_dot z hdot with ⟨A, E', rfl, hE⟩
      have hd : lastIdxOf '.' (A ++ '.' :: E') = some A.length := lastIdxOf_last_dot A E' hE
      have htake : (A ++ '.' :: E').take A.length = A := List.take_left A ('.' :: E')
      have hdrop : (A ++ '.' :: E').drop A.length = '.' :: E' := List.drop_left A ('.' :: E')
      by_cases hall : A.all (· == '.') = true
      case pos =>
        have hw : truncate255 (A ++ '.' :: E') = (A ++ '.' :: E').take 250 := by
          unfold truncate255
          rw [if_pos hlen, splitext_of_no_slash _ hns, hd]
          simp only [htake]
          rw [if_pos hall]
          simp
        rw [hw]
        unfold truncate255
        rw [if_neg (by simp [List.length_take])]
      case neg =>
        have hsz : splitext (A ++ '.' :: E') = (A, '.' :: E') := by
          rw [splitext_of_no_slash _ hns, hd]
          simp only [htake, hdrop]
          rw [if_neg hall]
        have hw : truncate255 (A ++ '.' :: E') = A.take 250 ++ '.' :: E' := by
          unfold truncate255
          rw [if_pos hlen, hsz]
        rw [hw]
        by_cases hwlen : (A.take 250 ++ '.' :: E').length > 255
        case neg =>
          unfold truncate255
          rw [if_neg hwlen]
        case pos =>
          have hAne : A ≠ [] := fun e => hall (by rw [e]; rfl)
          have hA250 : ¬ (A.take 250).all (· == '.') = true := by
            intro hallw
            have htne : A.take 250 ≠ [] := by
              intro e
              rcases List.take_eq_nil_iff.mp e with h250 | hAe
              · exact absurd h250 (by omega)
              · exact hAne hAe
            have hcontra := hasDotDot_of_dots_append (A.take 250) E' htne hallw
            rw [hw] at hdd
            rw [hdd] at hcontra
            cases hcontra
          have hsafew : ∀ ch ∈ A.take 250 ++ '.' :: E', isSafeChar ch = true := by
            intro ch hch
            rcases List.mem_append.mp hch with hchA | hchE
            · exact hsafe ch (List.mem_append.mpr (Or.inl (List.mem_of_mem_take hchA)))
            · exact hsafe ch (List.mem_append.mpr (Or.inr hchE))
          have hnsw : lastIdxOf '/' (A.take 250 ++ '.' :: E') = none :=
            lastIdxOf_none '/' _ (fun ch hch e => absurd (e ▸ hsafew ch hch) (by decide))
          have hdw : lastIdxOf '.' (A.take 250 ++ '.' :: E') = some (A.take 250).length :=
            lastIdxOf_last_dot (A.take 250) E' hE
          have hszw : splitext (A.take 250 ++ '.' :: E') = (A.take 250, '.' :: E') := by
            rw [splitext_of_no_slash _ hnsw, hdw]
            simp only [List.take_left, List.drop_left]
            rw [if_neg hA250]
          unfold truncate255
          rw [if_pos hwlen, hszw]
          simp only []
          rw [List.take_take]
          simp

/-- C7 counterexample. `sanitize_filename` is not idempotent: on the input
`".\\."` the backslash removal merges the two dots, giving `".."`, and a
second application deletes that `".."`, giving the empty string. -/
theorem c7_sanitize_not_idempotent :
    sanitize_filename (sanitize_filename ".\\.".data) ≠ sanitize_filename ".\\.".data := by
  decide

/-- C7 — corrected. `sanitize_filename` is idempotent on every input whose
sanitized form has no two adjacent dots — the only failure mode is the one
the counterexample exhibits: the `"\\"` (or `"/"`) removal merging two dots
into a fresh `".."` that a second pass deletes. In particular idempotence
holds even when the sanitized form is longer than 255 characters: the
truncation step reproduces itself on its own output
(`truncate255_safe_idem`). -/
theorem c7_sanitize_idempotent_amended (l : List Char)
    (hdd : hasDotDot (sanitize_filename l) = false) :
    sanitize_filename (sanitize_filename l) = sanitize_filename l := by
  have hsafe := sanitize_filename_chars_safe l
  set y := sanitize_filename l with hy
  have hb : basename y = y :=
    basename_all y (fun c hc e => absurd (e ▸ hsafe c hc) (by decide))
  have hr : removeDotDot y = y := removeDotDot_of_no_dotdot y hdd
  have hf1 : y.filter (· != '/') = y := by
    apply filter_all_id
    intro c hc
    have hne : c ≠ '/' := fun e => absurd (e ▸ hsafe c hc) (by decide)
    simpa using hne
  have hf2 : y.filter (· != '\\') = y := by
    apply filter_all_id
    intro c hc
    have hne : c ≠ '\\' := fun e => absurd (e ▸ hsafe c hc) (by decide)
    simpa using hne
  have hm : y.map (fun c => if isSafeChar c then c else '_') = y :=
    map_id_on y (fun c hc => if_pos (hsafe c hc))
  simp only [sanitize_filename]
  rw [hb, hr, hf1, hf2, hm]
  have hy3 : y = truncate255 ((((removeDotDot (basename l)).filter (· != '/')).filter
      (· != '\\')).map (fun c => if isSafeChar c then c else '_')) := by
    rw [hy]
    rfl
  rw [hy3]
  apply truncate255_safe_idem
  · intro c hc
    rcases List.mem_map.mp hc with ⟨d, _, rfl⟩
    by_cases hd : isSafeChar d = true
    · rw [if_pos hd]; exact hd
    · rw [if_neg hd]; decide
  · rw [← hy3]
    exact hdd

/-- C7 witness: an ordinary messy filename on which sanitization is
idempotent. -/
theorem c7_sanitize_idempotent_amended_witness :
    sanitize_filename (sanitize_filename "my report(1).py".data) =
      sanitize_filename "my report(1).py".data :=
  c7_sanitize_idempotent_amended "my report(1).py".data (by decide)

/-! ## Store lemmas shared by the lifecycle claims -/

theorem mem_updateBot {b' : Bot} {db : DB} {i : Nat} {f : Bot → Bot}
    (h : b' ∈ (updateBot db i f).bots) :
    ∃ b ∈ db.bots, b' = if b.id == i then f b else b := by
  simp only [updateBot] at h
  rcases List.mem_map.mp h with ⟨b, hb, rfl⟩
  exact ⟨b, hb, rfl⟩

theorem updateBot_nextId (db : DB) (i : Nat) (f : Bot → Bot) :
    (updateBot db i f).nextId = db.nextId := rfl

theorem updateBot_ids {db : DB} {i : Nat} {f : Bot → Bot}
    (hf : ∀ b, (f b).id = b.id) :
    (updateBot db i f).bots.map (fun b => b.id) = db.bots.map (fun b => b.id) := by
  simp only [updateBot, List.map_map]
  apply List.map_congr_left
  intro b _
  by_cases h : b.id = i
  · simp [Function.comp, h, hf]
  · simp [Function.comp, h]

theorem WF_updateBot {db : DB} {i : Nat} {f : Bot → Bot}
    (hwf : WFdb db) (hf : ∀ b, (f b).id = b.id) : WFdb (updateBot db i f) := by
  constructor
  · intro b' hb'
    rcases mem_updateBot hb' with ⟨b, hb, rfl⟩
    have hlt := hwf.1 b hb
    rw [updateBot_nextId]
    by_cases h : b.id = i
    · rw [if_pos (show (b.id == i) = true by simp [h]), hf]
      omega
    · rw [if_neg (show ¬ (b.id == i) = true by simp [h])]
      omega
  · rw [updateBot_ids hf]
    exact hwf.2

theorem findBot_updateBot {db : DB} {i : Nat} {f : Bot → Bot}
    (hf : ∀ b, (f b).id = b.id) :
    findBot (updateBot db i f) i = (findBot db i).map f := by
  simp only [findBot, updateBot]
  induction db.bots with
  | nil => rfl
  | cons b rest ih =>
    by_cases h : b.id = i
    · rw [List.map_cons, if_pos (show (b.id == i) = true by simp [h]),
        List.find?_cons, show ((f b).id == i) = true by simp [hf b, h],
        List.find?_cons, show (b.id == i) = true by simp [h]]
      rfl
    · rw [List.map_cons, if_neg (show ¬ (b.id == i) = true by simp [h]),
        List.find?_cons, show (b.id == i) = false by simp [h],
        List.find?_cons, show (b.id == i) = false by simp [h]]
      exact ih

theorem findBot_unique_aux :
    ∀ (l : List Bot) (i : Nat) (b bf : Bot), (l.map (fun x => x.id)).Nodup →
      b ∈ l → b.id = i → l.find? (fun x => x.id == i) = some bf → b = bf := by
  intro l
  induction l with
  | nil => intro i b bf _ hb _ _; cases hb
  | cons a rest ih =>
    intro i b bf hnd hb hid hfind
    by_cases ha : a.id = i
    · rw [List.find?_cons, show (a.id == i) = true by simp [ha]] at hfind
      injection hfind with hfa
      subst hfa
      rcases List.mem_cons.mp hb with rfl | hbr
      · rfl
      · exfalso
        have : b.id ∈ rest.map (fun x => x.id) := List.mem_map_of_mem _ hbr
        have hnm := (List.nodup_cons.mp hnd).1
        rw [hid, ← ha] at this
        exact hnm this
    · rw [List.find?_cons, show (a.id == i) = false by simp [ha]] at hfind
      rcases List.mem_cons.mp hb with rfl | hbr
      · exact absurd hid ha
      · exact ih i b bf (List.nodup_cons.mp hnd).2 hbr hid hfind

theorem findBot_unique {db : DB} {i : Nat} {b bf : Bot}
    (hnd : (db.bots.map (fun x => x.id)).Nodup)
    (hb : b ∈ db.bots) (hid : b.id = i) (hfind : findBot db i = some bf) : b = bf :=
  findBot_unique_aux db.bots i b bf hnd hb hid hfind

theorem verify_ok_facts {db : DB} {botId u : Nat} {bot : Bot}
    (h : verify_bot_ownership db botId u = .ok bot) :
    findBot db botId = some bot ∧ bot.user_id = u := by
  unfold verify_bot_ownership at h
  split at h
  · cases h
  · rename_i bot' hfind
    split at h
    · cases h
    · rename_i hu
      injection h with hb
      subst hb
      exact ⟨hfind, by omega⟩

theorem inv_updateBot_of {db : DB} {i : Nat} {f : Bot → Bot}
    (hinv : NullHandleInv db) (hf : ∀ b, BotOk b → BotOk (f b)) :
    NullHandleInv (updateBot db i f) := by
  intro b' hb'
  rcases mem_updateBot hb' with ⟨b, hb, rfl⟩
  by_cases h : b.id = i
  · rw [if_pos (show (b.id == i) = true by simp [h])]
    exact hf b (hinv b hb)
  · rw [if_neg (show ¬ (b.id == i) = true by simp [h])]
    exact hinv b hb

theorem removeBotRow_inv {db : DB} {i : Nat} (hinv : NullHandleInv db) :
    NullHandleInv (removeBotRow db i) := by
  intro b hb
  exact hinv b (List.mem_of_mem_filter hb)

theorem removeBotRow_WF {db : DB} {i : Nat} (hwf : WFdb db) : WFdb (removeBotRow db i) := by
  constructor
  · intro b hb
    exact hwf.1 b (List.mem_of_mem_filter hb)
  · exact List.Nodup.sublist ((List.filter_sublist _).map _) hwf.2

theorem inv_updateBot_of_handle {db : DB} {i : Nat} {f : Bot → Bot} {bot : Bot} {cid : String}
    (hnd : (db.bots.map (fun x => x.id)).Nodup)
    (hinv : NullHandleInv db) (hfind : findBot db i = some bot)
    (hcid : bot.container_id = some cid)
    (hcont : ∀ b, (f b).container_id = b.container_id) :
    NullHandleInv (updateBot db i f) := by
  intro b' hb'
  rcases mem_updateBot hb' with ⟨b, hb, rfl⟩
  by_cases h : b.id = i
  · rw [if_pos (show (b.id == i) = true by simp [h])]
    intro hnone
    rw [hcont] at hnone
    rw [findBot_unique hnd hb h hfind, hcid] at hnone
    cases hnone
  · rw [if_neg (show ¬ (b.id == i) = true by simp [h])]
    exact hinv b hb

/-! ### Preservation of the (corrected) null-handle invariant, per operation -/

theorem create_bot_preserves {db : DB} (u : Nat) (d : BotCreate)
    (hwf : WFdb db) (hinv : NullHandleInv db) :
    WFdb (create_bot db u d).1 ∧ NullHandleInv (create_bot db u d).1 := by
  unfold create_bot
  repeat' split
  all_goals try exact ⟨hwf, hinv⟩
  constructor
  · constructor
    · intro b hb
      rcases List.mem_append.mp hb with hold | hnew
      · have := hwf.1 b hold
        simp only []
        omega
      · rcases List.mem_singleton.mp hnew with rfl
        simp [newBot]
    · simp only [List.map_append]
      rw [List.nodup_append]
      refine ⟨hwf.2, by simp, ?_⟩
      intro a ha
      simp only [List.map_cons, List.map_nil, List.mem_singleton, newBot]
      rcases List.mem_map.mp ha with ⟨b, hb, rfl⟩
      have := hwf.1 b hb
      omega
  · intro b hb
    rcases List.mem_append.mp hb with hold | hnew
    · exact hinv b hold
    · rcases List.mem_singleton.mp hnew with rfl
      intro _
      exact Or.inl rfl

theorem upload_bot_files_db (db : DB) (u botId : Nat) (up : Upload) (dir : Dir) :
    (upload_bot_files db u botId up dir).1 = db ∨
    (upload_bot_files db u botId up dir).1 =
      updateBot db botId (fun b => { b with source_type := some SourceType.ZIP }) ∨
    (upload_bot_files db u botId up dir).1 =
      updateBot db botId (fun b => { b with source_type := some SourceType.FILE }) := by
  unfold upload_bot_files
  cases hv : verify_bot_ownership db botId u with
  | error e => simp
  | ok bot =>
    simp only []
    generalize sanitize_filename (if up.filename.isEmpty = true then "upload".data
      else up.filename) = fname
    repeat' split
    all_goals simp

theorem upload_bot_files_preserves {db : DB} (u botId : Nat) (up : Upload) (dir : Dir)
    (hwf : WFdb db) (hinv : NullHandleInv db) :
    WFdb (upload_bot_files db u botId up dir).1 ∧
      NullHandleInv (upload_bot_files db u botId up dir).1 := by
  rcases upload_bot_files_db db u botId up dir with h | h | h <;> rw [h]
  · exact ⟨hwf, hinv⟩
  · exact ⟨WF_updateBot hwf (fun b => rfl), inv_updateBot_of hinv (fun b hok => hok)⟩
  · exact ⟨WF_updateBot hwf (fun b => rfl), inv_updateBot_of hinv (fun b hok => hok)⟩

theorem start_bot_preserves {db : DB} (u botId : Nat) (env : StartEnv)
    (hwf : WFdb db) (hinv : NullHandleInv db) :
    WFdb (start_bot db u botId env).1 ∧ NullHandleInv (start_bot db u botId env).1 := by
  unfold start_bot
  split
  · exact ⟨hwf, hinv⟩
  · rename_i bot hv
    have hfind := (verify_ok_facts hv).1
    split
    · exact ⟨hwf, hinv⟩
    · split
      · exact ⟨hwf, hinv⟩
      · split
        · -- the bot has no handle yet: create_container decides the branch
          split
          · -- driver create failed: status CRASHED, handle untouched
            exact ⟨WF_updateBot hwf (fun b => rfl),
              inv_updateBot_of hinv (fun b _ _ => Or.inr rfl)⟩
          · rename_i cid hca
            have hwf1 : WFdb (updateBot db botId
                (fun b => { b with container_id := some cid })) :=
              WF_updateBot hwf (fun b => rfl)
            have hinv1 : NullHandleInv (updateBot db botId
                (fun b => { b with container_id := some cid })) :=
              inv_updateBot_of hinv (fun b _ hnone => absurd hnone (by simp))
            have hfind1 : findBot (updateBot db botId
                  (fun b => { b with container_id := some cid })) botId =
                some { bot with container_id := some cid } := by
              rw [@findBot_updateBot db botId
                (fun b => { b with container_id := some cid }) (fun b => rfl), hfind]
              rfl
            split
            · -- started: status RUNNING on a row whose handle was persisted
              exact ⟨WF_updateBot hwf1 (fun b => rfl),
                inv_updateBot_of_handle hwf1.2 hinv1 hfind1 rfl (fun b => rfl)⟩
            · -- start failed: status CRASHED
              exact ⟨WF_updateBot hwf1 (fun b => rfl),
                inv_updateBot_of hinv1 (fun b _ _ => Or.inr rfl)⟩
        · -- handle already present
          rename_i cid0 hc
          split
          · exact ⟨WF_updateBot hwf (fun b => rfl),
              inv_updateBot_of_handle hwf.2 hinv hfind hc (fun b => rfl)⟩
          · exact ⟨WF_updateBot hwf (fun b => rfl),
              inv_updateBot_of hinv (fun b _ _ => Or.inr rfl)⟩

theorem stop_bot_preserves {db : DB} (u botId : Nat) (api : ContainerApi)
    (hwf : WFdb db) (hinv : NullHandleInv db) :
    WFdb (stop_bot db u botId api).1 ∧ NullHandleInv (stop_bot db u botId api).1 := by
  unfold stop_bot
  split
  · exact ⟨hwf, hinv⟩
  · rename_i bot hv
    split
    · exact ⟨hwf, hinv⟩
    · rename_i cid hc
      split
      · exact ⟨WF_updateBot hwf (fun b => rfl),
          inv_updateBot_of_handle hwf.2 hinv (verify_ok_facts hv).1 hc (fun b => rfl)⟩
      · exact ⟨hwf, hinv⟩

theorem restart_bot_preserves {db : DB} (u botId : Nat) (api : ContainerApi)
    (hwf : WFdb db) (hinv : NullHandleInv db) :
    WFdb (restart_bot db u botId api).1 ∧ NullHandleInv (restart_bot db u botId api).1 := by
  unfold restart_bot
  split
  · exact ⟨hwf, hinv⟩
  · rename_i bot hv
    split
    · exact ⟨hwf, hinv⟩
    · rename_i cid hc
      split
      · exact ⟨WF_updateBot hwf (fun b => rfl),
          inv_updateBot_of_handle hwf.2 hinv (verify_ok_facts hv).1 hc (fun b => rfl)⟩
      · exact ⟨hwf, hinv⟩

theorem delete_bot_preserves {db : DB} (u botId : Nat)
    (hwf : WFdb db) (hinv : NullHandleInv db) :
    WFdb (delete_bot db u botId).1 ∧ NullHandleInv (delete_bot db u botId).1 := by
  unfold delete_bot
  split
  · exact ⟨hwf, hinv⟩
  · exact ⟨removeBotRow_WF hwf, removeBotRow_inv hinv⟩

/-! ## Claim C1: the null-handle invariant -/

/-- C1 counterexample. The claimed invariant `sandbox_handle = null ⇒ state
= CREATED` is broken by exactly the operation the claim rules out: starting
a bot whose container does not exist yet, when the driver's create fails,
commits status CRASHED while the handle is still null (src/app/bots.py lines
333-366). The initial store satisfies the claimed invariant; the store after
the failed start does not. -/
theorem c1_null_handle_counterexample :
    NullHandleCreated testDB ∧
    ¬ NullHandleCreated (applyOp testDB (.start 1 1 failCreateEnv)) ∧
    (findBot (applyOp testDB (.start 1 1 failCreateEnv)) 1).map
      (fun b => (b.container_id, b.status)) = some (none, .CRASHED) := by
  refine ⟨?_, ?_, ?_⟩
  · unfold NullHandleCreated; decide
  · unfold NullHandleCreated; decide
  · decide

/-- C1 — corrected. The invariant that holds and is preserved by every
operation of the Lifecycle Manager is: a null sandbox handle implies state
CREATED **or CRASHED** (a start that fails before a handle is persisted
leaves a CRASHED bot with a null handle; every other operation keeps the
stronger property). -/
theorem c1_amended_null_handle_invariant (db : DB) (op : Op)
    (hwf : WFdb db) (hinv : NullHandleInv db) :
    WFdb (applyOp db op) ∧ NullHandleInv (applyOp db op) := by
  cases op with
  | create u d => exact create_bot_preserves u d hwf hinv
  | upload u botId up dir => exact upload_bot_files_preserves u botId up dir hwf hinv
  | start u botId env => exact start_bot_preserves u botId env hwf hinv
  | stop u botId api => exact stop_bot_preserves u botId api hwf hinv
  | restart u botId api => exact restart_bot_preserves u botId api hwf hinv
  | delete u botId => exact delete_bot_preserves u botId hwf hinv

/-- C1 witness: the amended invariant survives the very operation that broke
the claimed one. -/
theorem c1_amended_null_handle_invariant_witness :
    WFdb (applyOp testDB (.start 1 1 failCreateEnv)) ∧
    NullHandleInv (applyOp testDB (.start 1 1 failCreateEnv)) :=
  c1_amended_null_handle_invariant testDB (.start 1 1 failCreateEnv)
    (by unfold WFdb; decide) (by unfold NullHandleInv BotOk; decide)

/-! ## Claim C3: sandbox failure during start -/

/-- C3 counterexample. When the driver's *start* fails (here with the Docker
API error message "disk full"), the bot is persisted CRASHED and the caller
gets a BadRequest — but its detail is the fixed text
"Failed to start bot: 400: Failed to start container"; `start_container`
returns only a boolean (src/app/docker.py lines 201-217), so the driver's
message "disk full" is not carried. -/
theorem c3_driver_message_counterexample :
    failStartEnv.startApi = .apiError "disk full" ∧
    (start_bot testDB2 1 1 failStartEnv).2 =
      .error (.badRequest "Failed to start bot: 400: Failed to start container") ∧
    (findBot (start_bot testDB2 1 1 failStartEnv).1 1).map (fun b => b.status) =
      some .CRASHED ∧
    containsSub "Failed to start bot: 400: Failed to start container".data
      "disk full".data = false := by
  exact ⟨by decide, by decide, by decide, by decide⟩

/-- C3 — corrected. For an owned bot with an existing plan and a non-empty
artifact directory: any driver failure during start persists status CRASHED
and surfaces as a BadRequest; the detail carries the driver's message only
when the *create* step failed (nested via `str(e)` of the driver's
`BadRequestException`), while a failing *start* step yields the fixed detail
"Failed to start bot: 400: Failed to start container" without the runtime's
error message (src/app/bots.py lines 333-366). -/
theorem c3_start_failure_crashed_amended :
    ∀ (db : DB) (u botId : Nat) (env : StartEnv) (bot : Bot) (plan : Plan),
      verify_bot_ownership db botId u = .ok bot →
      findPlan db bot.plan_id = some plan →
      env.dirNonEmpty = true →
      ((∀ m, bot.container_id = none → env.createApi = .apiError m →
        (start_bot db u botId env).2 = .error (.badRequest
          ("Failed to start bot: 400: Failed to create container: " ++ m)) ∧
        (findBot (start_bot db u botId env).1 botId).map (fun b => b.status) =
          some .CRASHED) ∧
      (∀ cid, bot.container_id = none → env.createApi = .ok cid →
        start_container env.startApi = false →
        (start_bot db u botId env).2 = .error (.badRequest
          "Failed to start bot: 400: Failed to start container") ∧
        (findBot (start_bot db u botId env).1 botId).map (fun b => b.status) =
          some .CRASHED) ∧
      (∀ cid0, bot.container_id = some cid0 →
        start_container env.startApi = false →
        (start_bot db u botId env).2 = .error (.badRequest
          "Failed to start bot: 400: Failed to start container") ∧
        (findBot (start_bot db u botId env).1 botId).map (fun b => b.status) =
          some .CRASHED)) := by
  intro db u botId env bot plan hv hp hdir
  have hfind := (verify_ok_facts hv).1
  refine ⟨?_, ?_, ?_⟩
  · intro m hc hca
    simp only [start_bot, hv, hp, hdir, hc, hca, create_container, strBadRequest,
      Bool.not_true, Bool.false_eq_true, if_false]
    refine ⟨rfl, ?_⟩
    rw [@findBot_updateBot db botId
      (fun b => { b with status := BotStatus.CRASHED }) (fun b => rfl), hfind]
    rfl
  · intro cid hc hca hs
    simp only [start_bot, hv, hp, hdir, hc, hca, hs, create_container, strBadRequest,
      Bool.not_true, Bool.false_eq_true, if_false]
    refine ⟨rfl, ?_⟩
    rw [@findBot_updateBot (updateBot db botId
        (fun b => { b with container_id := some cid })) botId
      (fun b => { b with status := BotStatus.CRASHED }) (fun b => rfl)]
    rw [@findBot_updateBot db botId
      (fun b => { b with container_id := some cid }) (fun b => rfl), hfind]
    rfl
  · intro cid0 hc hs
    simp only [start_bot, hv, hp, hdir, hc, hs, Bool.not_true, Bool.false_eq_true, if_false]
    refine ⟨rfl, ?_⟩
    rw [@findBot_updateBot db botId
      (fun b => { b with status := BotStatus.CRASHED }) (fun b => rfl), hfind]
    rfl

/-- C3 witness: the create-failure conjunct at a concrete store. -/
theorem c3_start_failure_crashed_amended_witness :
    (start_bot testDB 1 1 failCreateEnv).2 = .error (.badRequest
      "Failed to start bot: 400: Failed to create container: boom") ∧
    (findBot (start_bot testDB 1 1 failCreateEnv).1 1).map (fun b => b.status) =
      some .CRASHED :=
  (c3_start_failure_crashed_amended testDB 1 1 failCreateEnv testBot testPlanFree
    (by decide) (by decide) (by decide)).1 "boom" (by decide) (by decide)

/-! ## Claim C5: the per-plan quota -/

theorem countBotsOf_insert (db : DB) (u : Nat) (d : BotCreate) :
    countBotsOf { db with bots := db.bots ++ [newBot db u d], nextId := db.nextId + 1 } u =
      countBotsOf db u + 1 := by
  simp [countBotsOf, List.filter_append, newBot]

/-- C5 counterexample. Plans are attached to bots, not users, and the quota
check compares against the *requested* plan only (src/app/bots.py lines
127-137). A user who creates one bot on the Free plan (max_bots = 1) and then
a second on the Basic plan (max_bots = 3) ends, after two accepted creates,
with 2 live bots while owning a bot whose plan caps them at 1 — refuting the
claimed always-invariant. -/
theorem c5_quota_counterexample :
    (create_bot dbQ0 1 dQ1).2 = .ok (newBot dbQ0 1 dQ1) ∧
    (create_bot (applyOp dbQ0 (.create 1 dQ1)) 1 dQ2).2 =
      .ok (newBot (applyOp dbQ0 (.create 1 dQ1)) 1 dQ2) ∧
    PlanQuotaInv dbQ0 ∧
    PlanQuotaInv (applyOp dbQ0 (.create 1 dQ1)) ∧
    ¬ PlanQuotaInv (applyOp (applyOp dbQ0 (.create 1 dQ1)) (.create 1 dQ2)) ∧
    countBotsOf (applyOp (applyOp dbQ0 (.create 1 dQ1)) (.create 1 dQ2)) 1 = 2 ∧
    testPlanFree.max_bots = 1 := by
  refine ⟨by decide, by decide, ?_, ?_, ?_, by decide, by decide⟩
  all_goals unfold PlanQuotaInv
  all_goals decide

/-- C5 — corrected. What the code guarantees: an otherwise-valid create is
rejected with Conflict as soon as the owner's live bot count has reached the
*requested* plan's `max_bots`; consequently, after any successful create the
creator's live bot count is at most the requested plan's `max_bots` (so the
claimed bound holds whenever all of a user's bots are on one plan, but not
across mixed plans). -/
theorem c5_quota_amended :
    (∀ (db : DB) (u : Nat) (d : BotCreate) (plan : Plan),
      validate_bot_name d.name = true →
      startCmdRejected d.start_cmd = false →
      findPlan db d.plan_id = some plan →
      plan.max_bots ≤ countBotsOf db u →
      create_bot db u d = (db, .error (.conflict
        ("Bot limit reached. Your plan allows maximum "
          ++ toString plan.max_bots ++ " bots.")))) ∧
    (∀ (db db' : DB) (u : Nat) (d : BotCreate) (bot : Bot) (plan : Plan),
      create_bot db u d = (db', .ok bot) →
      findPlan db d.plan_id = some plan →
      countBotsOf db' u ≤ plan.max_bots) := by
  constructor
  · intro db u d plan h1 h2 hp hq
    simp [create_bot, h1, h2, hp, hq]
  · intro db db' u d bot plan h hp
    unfold create_bot at h
    split at h
    · simp at h
    · split at h
      · simp at h
      · split at h
        · simp at h
        · rename_i plan' hp'
          rw [hp] at hp'
          injection hp' with hpe
          subst hpe
          split at h
          · simp at h
          · rename_i hq
            split at h
            · simp at h
            · simp only [Prod.mk.injEq] at h
              rw [← h.1, countBotsOf_insert]
              omega

/-- C5 witness: both conjuncts at concrete stores — the rejection on a full
Free plan, and the post-create bound. -/
theorem c5_quota_amended_witness :
    create_bot testDB 1 ⟨"beta".data, .PYTHON, none, 1⟩ =
      (testDB, .error (.conflict ("Bot limit reached. Your plan allows maximum "
        ++ toString testPlanFree.max_bots ++ " bots."))) ∧
    countBotsOf (applyOp dbQ0 (.create 1 dQ1)) 1 ≤ testPlanFree.max_bots :=
  ⟨c5_quota_amended.1 testDB 1 ⟨"beta".data, .PYTHON, none, 1⟩ testPlanFree
      (by decide) (by decide) (by decide) (by decide),
    c5_quota_amended.2 dbQ0 (applyOp dbQ0 (.create 1 dQ1)) 1 dQ1 (newBot dbQ0 1 dQ1)
      testPlanFree (by decide) (by decide)⟩

/-! ## Claim C2: archive ingest with a malicious member -/

/-- A member the zip validation loop rejects: a traversal path, or a
non-directory entry whose extension is present and not in the runtime's
allow-list. -/
def badMember (rt : BotRuntime) (m : List Char) : Prop :=
  hasTraversal m = true ∨
    (endsWithSlash m = false ∧ (pySuffix (pathName m)).isEmpty = false ∧
      (RUNTIME_REGISTRY rt).allowed_extensions.contains (pySuffix (pathName m)) = false)

theorem checkMembers_some_of_bad (rt : BotRuntime) :
    ∀ ms : List (List Char), (∃ m ∈ ms, badMember rt m) →
      ∃ msg, checkMembers rt ms = some (.badRequest msg) := by
  intro ms
  induction ms with
  | nil => rintro ⟨m, hm, _⟩; cases hm
  | cons m rest ih =>
    rintro ⟨m', hm', hbad⟩
    by_cases ht : hasTraversal m = true
    · refine ⟨"Invalid file path in zip", ?_⟩
      unfold checkMembers
      rw [if_pos ht]
    · have htail : (∃ x ∈ rest, badMember rt x) → ∃ msg,
          checkMembers rt (m :: rest) = some (.badRequest msg) := by
        rintro hx
        rcases ih hx with ⟨msg, hmsg⟩
        by_cases hd : endsWithSlash m = true
        · refine ⟨msg, ?_⟩
          unfold checkMembers
          rw [if_neg ht, if_pos hd]
          exact hmsg
        · by_cases he : (!(pySuffix (pathName m)).isEmpty &&
              !(RUNTIME_REGISTRY rt).allowed_extensions.contains
                (pySuffix (pathName m))) = true
          · refine ⟨extNotAllowedMsg (pySuffix (pathName m)) rt, ?_⟩
            unfold checkMembers
            rw [if_neg ht, if_neg hd, if_pos he]
          · refine ⟨msg, ?_⟩
            unfold checkMembers
            rw [if_neg ht, if_neg hd, if_neg he]
            exact hmsg
      rcases List.mem_cons.mp hm' with rfl | hmr
      · rcases hbad with h | ⟨hs, hne, hcont⟩
        · exact absurd h ht
        · refine ⟨extNotAllowedMsg (pySuffix (pathName m')) rt, ?_⟩
          unfold checkMembers
          rw [if_neg ht, if_neg (by simp [hs]), if_pos (by rw [hne, hcont]; rfl)]
      · exact htail ⟨m', hmr, hbad⟩

/-- C2 counterexample. On a zip whose only member is `../etc/passwd`, ingest
does reject with BadRequest — but a file *has* been written under the bot's
artifact directory: the uploaded archive itself is saved there before the
member checks run and is not removed on rejection (src/app/bots.py lines
243-257, 272-273). -/
theorem c2_zip_counterexample :
    upload_bot_files testDB 1 1 evilZip [] =
      (testDB, ["evil.zip".data], .error (.badRequest "Invalid file path in zip")) ∧
    (upload_bot_files testDB 1 1 evilZip []).2.1 ≠ [] := by
  exact ⟨by decide, by decide⟩

/-- C2 — corrected. For every archive containing a member that is absolute,
has a `..` segment, or is a non-directory member with a present disallowed
extension: ingest rejects with BadRequest, the store is unchanged, and no
*member* is extracted — but the artifact directory ends as its cleared
contents plus the uploaded archive file itself. -/
theorem c2_zip_reject_amended :
    ∀ (db : DB) (u botId : Nat) (up : Upload) (dir : Dir) (bot : Bot)
      (ms : List (List Char)),
      verify_bot_ownership db botId u = .ok bot →
      up.zipMembers = some ms →
      ".zip".data.isSuffixOf (sanitize_filename
        (if up.filename.isEmpty then "upload".data else up.filename)) = true →
      (∃ m ∈ ms, badMember bot.runtime m) →
      ∃ msg, upload_bot_files db u botId up dir =
        (db, clearDir dir ++ [sanitize_filename
          (if up.filename.isEmpty then "upload".data else up.filename)],
         .error (.badRequest msg)) := by
  intro db u botId up dir bot ms hv hzm hsuf hbad
  rcases checkMembers_some_of_bad bot.runtime ms hbad with ⟨msg, hcm⟩
  refine ⟨msg, ?_⟩
  unfold upload_bot_files
  rw [hv]
  simp only [hzm, hsuf, hcm, if_true]

/-- C2 witness: the amended statement at the concrete `../etc/passwd`
archive. -/
theorem c2_zip_reject_amended_witness :
    ∃ msg, upload_bot_files testDB 1 1 evilZip [] =
      (testDB, clearDir [] ++ [sanitize_filename
        (if evilZip.filename.isEmpty then "upload".data else evilZip.filename)],
       .error (.badRequest msg)) :=
  c2_zip_reject_amended testDB 1 1 evilZip [] testBot ["../etc/passwd".data]
    (by decide) (by decide) (by decide)
    ⟨"../etc/passwd".data, by decide, Or.inl (by decide)⟩

/-! ## Claim C6: single-file ingest of a dotfile -/

theorem empty_ext_not_allowed (rt : BotRuntime) :
    (RUNTIME_REGISTRY rt).allowed_extensions.contains ([] : List Char) = false := by
  cases rt <;> decide

/-- C6 counterexample. A single (non-zip) file whose sanitized name has an
empty extension — the dotfile `.env` — is *rejected*: the single-file branch
checks `if ext not in allowed_extensions` with no empty-extension exemption
(src/app/bots.py lines 280-292), and `""` is not in the allow-list. Nothing
is persisted. -/
theorem c6_dotfile_counterexample :
    sanitize_filename ".env".data = ".env".data ∧
    pySuffix (pathName (sanitize_filename ".env".data)) = [] ∧
    upload_bot_files testDB 1 1 dotfileUp [] =
      (testDB, [], .error (.badRequest
        "File type  not allowed for BotRuntime.PYTHON runtime")) := by
  exact ⟨by decide, by decide, by decide⟩

/-- C6 — corrected. Single-file ingest with an empty sanitized extension is
always rejected with BadRequest and nothing is persisted; the
empty-extension exemption (`if ext and ...`) exists only in the archive
branch. -/
theorem c6_empty_extension_rejected_amended :
    ∀ (db : DB) (u botId : Nat) (up : Upload) (dir : Dir) (bot : Bot),
      verify_bot_ownership db botId u = .ok bot →
      ".zip".data.isSuffixOf (sanitize_filename
        (if up.filename.isEmpty then "upload".data else up.filename)) = false →
      pySuffix (pathName (sanitize_filename
        (if up.filename.isEmpty then "upload".data else up.filename))) = [] →
      upload_bot_files db u botId up dir =
        (db, clearDir dir, .error (.badRequest (extNotAllowedMsg [] bot.runtime))) := by
  intro db u botId up dir bot hv hsuf hext
  unfold upload_bot_files
  rw [hv]
  simp only [hsuf, hext, empty_ext_not_allowed, Bool.false_eq_true, if_false,
    Bool.not_false, if_true]

/-- C6 witness: the amended statement at the concrete dotfile `.env`. -/
theorem c6_empty_extension_rejected_amended_witness :
    upload_bot_files testDB 1 1 dotfileUp [] =
      (testDB, clearDir [], .error (.badRequest (extNotAllowedMsg [] testBot.runtime))) :=
  c6_empty_extension_rejected_amended testDB 1 1 dotfileUp [] testBot
    (by decide) (by decide) (by decide)

/-! ## Claim C8: errors while pumping the live log stream -/

/-- C8 counterexample. An error raised while pumping the follow-stream (here
with message "boom", after one delivered line) is reported as a single text
frame — but the session is *not* closed with code 1011: the inner
`stream_to_websocket` swallows the exception and the handler returns without
any explicit close (src/app/sockets.py lines 95-105), leaving the framework's
normal closure. The 1011 close of the outer handler is unreachable from the
pump. -/
theorem c8_no_internal_error_close_counterexample :
    bot_logs_websocket testDB2 1 errSession =
      [.text "=== Recent Logs ===\nold\n=== Live Stream ===\n", .text "hi",
        .text "Error: boom"] ∧
    WsEvent.close 1011 ∉ bot_logs_websocket testDB2 1 errSession := by
  exact ⟨by decide, by decide⟩

/-- C8 — corrected. For every authenticated, owner-resolved session on a bot
with a sandbox handle, an error raised while pumping the live stream is
reported to the subscriber as a single final text frame `"Error: ..."`, and
the session then ends with *no* explicit close at all (in particular not the
internal-error code 1011); the framework performs a normal closure. -/
theorem c8_stream_error_amended :
    ∀ (db : DB) (botId : Nat) (s : WsSession) (uid : Nat) (bot : Bot)
      (cid : String) (n : Nat) (m : String),
      s.authedUser = some uid →
      verify_bot_ownership db botId uid = .ok bot →
      bot.container_id = some cid →
      s.pumpError = some (n, m) →
      ∃ pre : List WsEvent,
        bot_logs_websocket db botId s = pre ++ [.text ("Error: " ++ m)] ∧
        ∀ code, WsEvent.close code ∉ bot_logs_websocket db botId s := by
  intro db botId s uid bot cid n m hauth hv hc hpump
  unfold bot_logs_websocket
  rw [hauth]
  simp only [hv, hc, hpump]
  refine ⟨(if get_recent_logs s.tailApi ≠ "" then
      [.text ("=== Recent Logs ===\n" ++ get_recent_logs s.tailApi
        ++ "\n=== Live Stream ===\n")] else []) ++
    ((stream_logs s.streamSrc).take n).map .text, rfl, ?_⟩
  intro code hmem
  rcases List.mem_append.mp hmem with hmem | hlast
  · rcases List.mem_append.mp hmem with hpre | hlines
    · by_cases hr : get_recent_logs s.tailApi ≠ ""
      · rw [if_pos hr] at hpre
        rcases List.mem_singleton.mp hpre with h
        cases h
      · rw [if_neg hr] at hpre
        cases hpre
    · rcases List.mem_map.mp hlines with ⟨l, _, h⟩
      cases h
  · rcases List.mem_singleton.mp hlast with h
    cases h

/-- C8 witness: the amended statement at the concrete erroring session. -/
theorem c8_stream_error_amended_witness :
    ∃ pre : List WsEvent,
      bot_logs_websocket testDB2 1 errSession = pre ++ [.text ("Error: " ++ "boom")] ∧
      ∀ code, WsEvent.close code ∉ bot_logs_websocket testDB2 1 errSession :=
  c8_stream_error_amended testDB2 1 errSession 1 { testBot with container_id := some "c1" }
    "c1" 1 "boom" (by decide) (by decide) (by decide) (by decide)

end Sapine
